import Mathlib

/-!
Shallow embedding of src/movie_quiz.py: the anagram generator, the
per-movie variant pool, the per-question attempt state machine and the
final scoring.  Randomness (random.choice, random.sample, console input)
is modelled by explicit oracle arguments; a Python exception surfaces as
an Option/Except failure value.
-/

set_option autoImplicit false

namespace MovieQuiz

/-- Embeds the `GuessResult` enum (src/movie_quiz.py lines 45-51). -/
inductive GuessResult where
  | DEFAULT
  | CORRECT
  | INCORRECT
  | PASS
deriving DecidableEq, Repr

/-- Embeds the `Movie` dataclass (src/movie_quiz.py lines 54-63): a title,
its pre-generated anagram pool, the solved flag and the list of variants
already shown. -/
structure Movie where
  title : String
  anagrams : List String
  correct_guess : Bool := false
  _spent : List String := []
deriving DecidableEq, Repr

/-- Model of Python's `str.lower()`: lower-case every character. -/
def pyLower (s : String) : String :=
  String.mk (s.data.map Char.toLower)

/-- Model of Python's `str.strip()`: drop leading and trailing
whitespace characters. -/
def pyStrip (s : String) : String :=
  String.mk (((s.data.dropWhile Char.isWhitespace).reverse.dropWhile Char.isWhitespace).reverse)

/-- Embeds the `title_lower` property (src/movie_quiz.py lines 65-67). -/
def Movie.title_lower (m : Movie) : String :=
  pyLower m.title

/-- Embeds Python's `random.choice(l)` with the random draw supplied as an
oracle index `k`: a uniform pick is some element `l[k % len(l)]`; on an
empty sequence `random.choice` raises `IndexError`, modelled as `none`. -/
def randomChoice {α : Type} (k : Nat) (l : List α) : Option α :=
  l.get? (k % l.length)

/-- Embeds `Movie.random_anagram` (src/movie_quiz.py lines 69-72):
`random.choice([x for x in self.anagrams if x not in self._spent])`,
appending the pick to `_spent`.  `none` models the `IndexError` raised by
`random.choice` on an empty remaining pool. -/
def Movie.random_anagram (m : Movie) (k : Nat) : Option (String × Movie) :=
  match randomChoice k (m.anagrams.filter fun x => !(m._spent.contains x)) with
  | none => none
  | some a => some (a, { m with _spent := m._spent ++ [a] })

/-- Embeds the loop body of `MovieQuiz._scramble_word`
(src/movie_quiz.py lines 121-128).  The counter `i` is carried exactly as
in the source: it is initialised to 0 and the loop condition is `i < 10`,
but no iteration ever changes it.  `samples` is the oracle stream of
results of `random.sample(word, len(word))`, one entry consumed per
iteration; `none` means the finite oracle stream was exhausted while the
loop was still running (the source loop would keep drawing). -/
def scramble_go (word : String) (i : Nat) : List String → Option String
  | [] => if i < 10 then none else some word
  | s :: rest =>
      if i < 10 then
        (if s ≠ word then some s else scramble_go word i rest)
      else some word

/-- Embeds `MovieQuiz._scramble_word` (src/movie_quiz.py lines 121-128):
the loop of `scramble_go` entered with `i = 0`. -/
def scramble_word (word : String) (samples : List String) : Option String :=
  scramble_go word 0 samples

/-- Helper for `splitlines`: walk the character list accumulating the
current line (in reverse); a line feed ends a line, and a non-empty final
accumulator becomes the last line. -/
def splitlinesGo : List Char → List Char → List String
  | [], [] => []
  | [], acc => [String.mk acc.reverse]
  | c :: rest, acc =>
      if c = '\n' then String.mk acc.reverse :: splitlinesGo rest []
      else splitlinesGo rest (c :: acc)

/-- Model of Python's `str.splitlines` restricted to newline-delimited
text as used for movies.txt: split at each line feed, with no trailing
empty line (so the empty string yields the empty list). -/
def splitlines (s : String) : List String :=
  splitlinesGo s.data []

/-- The fatal load failure of the spec's error taxonomy: in the source it
is the `OSError` raised by `open` in `MovieQuiz._load_movie_titles`
(src/movie_quiz.py lines 100-104) and propagated unhandled out of
`MovieQuiz.__init__`. -/
inductive LoadError where
  | fileNotFound
deriving DecidableEq, Repr

/-- Embeds `MovieQuiz._load_movie_titles` (src/movie_quiz.py lines
100-104).  The filesystem is an oracle: `fs = none` models a missing or
unreadable file (where `open` raises), `fs = some content` a readable
file whose whole text is `content`; the body is `f.read().splitlines()`
with no emptiness check. -/
def load_movie_titles (fs : Option String) : Except LoadError (List String) :=
  match fs with
  | none => Except.error LoadError.fileNotFound
  | some content => Except.ok (splitlines content)

/-- Embeds the classification of one normalised answer by the `match
answer.lower():` statement (src/movie_quiz.py lines 152-163): the cases
are tried in source order `'next'`, `'pass'`, `question.title_lower`,
wildcard. -/
def classifyAnswer (titleLower answer : String) : GuessResult :=
  if pyLower answer = "next" then GuessResult.DEFAULT
  else if pyLower answer = "pass" then GuessResult.PASS
  else if pyLower answer = titleLower then GuessResult.CORRECT
  else GuessResult.INCORRECT

/-- Embeds the anagram display at the top of an attempt iteration
(src/movie_quiz.py lines 147-148): when the running result is `DEFAULT` a
fresh variant is drawn via `random_anagram` (whose `IndexError` aborts the
session, modelled as `none`); otherwise the movie state is untouched. -/
def entryStep (k : Nat) (m : Movie) (res : GuessResult) : Option Movie :=
  if res = GuessResult.DEFAULT then
    match m.random_anagram k with
    | none => none
    | some (_, m2) => some m2
  else some m

/-- Embeds the attempt loop `for x in range(self.max_guesses)`
(src/movie_quiz.py lines 146-166) for one question.  `inputs x` is the
raw console line of iteration `x` (stripped as in
`ConsoleUtils.get_input`), `rand x` the random draw of that iteration.
It returns the final movie state, the final `result` value and the number
of user inputs consumed, or `none` if `random_anagram` raised. -/
def entryGo (inputs : Nat → String) (rand : Nat → Nat) :
    Nat → Movie → GuessResult → Nat → Option (Movie × GuessResult × Nat)
  | 0, m, res, x => some (m, res, x)
  | rem + 1, m, res, x =>
    match entryStep (rand x) m res with
    | none => none
    | some m2 =>
      match classifyAnswer m2.title_lower (pyStrip (inputs x)) with
      | GuessResult.DEFAULT => entryGo inputs rand rem m2 GuessResult.DEFAULT (x + 1)
      | GuessResult.PASS => some (m2, GuessResult.PASS, x + 1)
      | GuessResult.CORRECT => some ({ m2 with correct_guess := true }, GuessResult.CORRECT, x + 1)
      | GuessResult.INCORRECT => entryGo inputs rand rem m2 GuessResult.INCORRECT (x + 1)

/-- One question of `MovieQuiz.start` (src/movie_quiz.py lines 145-166):
the attempt loop entered with `result = GuessResult.DEFAULT`. -/
def runEntry (inputs : Nat → String) (rand : Nat → Nat) (maxGuesses : Nat) (m : Movie) :
    Option (Movie × GuessResult × Nat) :=
  entryGo inputs rand maxGuesses m GuessResult.DEFAULT 0

/-- The summary message printed by `MovieQuiz.start`
(src/movie_quiz.py lines 184-190). -/
inductive Summary where
  | allCorrect
  | allWrong
  | mixed (correct incorrect : Nat)
deriving DecidableEq, Repr

/-- Embeds the scoring block of `MovieQuiz.start` (src/movie_quiz.py
lines 180-190): `correct` counts questions with `correct_guess` set,
`incorrect = num_questions - correct`, and the message is selected by the
`if correct == num_questions / elif correct == 0 / else` chain. -/
def finalSummary (questions : List Movie) : Summary :=
  let num_questions := questions.length
  let correct := (questions.filter fun q => q.correct_guess).length
  let incorrect := num_questions - correct
  if correct = num_questions then Summary.allCorrect
  else if correct = 0 then Summary.allWrong
  else Summary.mixed correct incorrect

/-- Embeds the question loop `for i, question in enumerate(self.questions)`
of `MovieQuiz.start` (src/movie_quiz.py lines 140-175): each question is
resolved in order by its attempt loop; the oracle streams are indexed by
the question index `i`.  `none` models an `IndexError` escaping
`random_anagram` and aborting the session. -/
def runQuestions (inputs : Nat → Nat → String) (rand : Nat → Nat → Nat) (maxGuesses : Nat) :
    Nat → List Movie → Option (List Movie)
  | _, [] => some []
  | i, q :: qs =>
    match runEntry (inputs i) (rand i) maxGuesses q with
    | none => none
    | some (q2, _, _) =>
      match runQuestions inputs rand maxGuesses (i + 1) qs with
      | none => none
      | some qs2 => some (q2 :: qs2)

/-- Embeds `MovieQuiz.start` (src/movie_quiz.py lines 130-192): run every
question in the stored order, then compute the summary over the final
question states. -/
def start (inputs : Nat → Nat → String) (rand : Nat → Nat → Nat) (maxGuesses : Nat)
    (questions : List Movie) : Option (List Movie × Summary) :=
  match runQuestions inputs rand maxGuesses 0 questions with
  | none => none
  | some qs2 => some (qs2, finalSummary qs2)

/-! ### Helper lemmas -/

/-- A successful `randomChoice` returns an element of the list. -/
theorem randomChoice_mem {α : Type} {k : Nat} {l : List α} {a : α}
    (h : randomChoice k l = some a) : a ∈ l :=
  List.get?_mem h

/-- A successful `random_anagram` call returns an unshown pool member,
appends exactly it to `_spent`, and leaves every other field unchanged. -/
theorem random_anagram_some_spec {m : Movie} {k : Nat} {a : String} {m2 : Movie}
    (h : m.random_anagram k = some (a, m2)) :
    a ∈ m.anagrams ∧ m._spent.contains a = false ∧
    m2.title = m.title ∧ m2.anagrams = m.anagrams ∧
    m2.correct_guess = m.correct_guess ∧ m2._spent = m._spent ++ [a] := by
  unfold Movie.random_anagram at h
  split at h
  · exact absurd h (by simp)
  · rename_i b hb
    simp only [Option.some.injEq, Prod.mk.injEq] at h
    obtain ⟨rfl, rfl⟩ := h
    have hmem := randomChoice_mem hb
    rw [List.mem_filter] at hmem
    refine ⟨hmem.1, ?_, rfl, rfl, rfl, rfl⟩
    simpa using hmem.2

/-- The anagram-display step never changes the title, the pool or the
solved flag of the question. -/
theorem entryStep_some_spec {k : Nat} {m : Movie} {res : GuessResult} {m2 : Movie}
    (h : entryStep k m res = some m2) :
    m2.title = m.title ∧ m2.anagrams = m.anagrams ∧ m2.correct_guess = m.correct_guess := by
  unfold entryStep at h
  split at h
  · split at h
    · exact absurd h (by simp)
    · rename_i a m3 hp
      obtain rfl : m3 = m2 := by simpa using h
      obtain ⟨-, -, h3, h4, h5, -⟩ := random_anagram_some_spec hp
      exact ⟨h3, h4, h5⟩
  · obtain rfl : m = m2 := by simpa using h
    exact ⟨rfl, rfl, rfl⟩

/-- When the compared title is itself a reserved word, the classification
can never be `CORRECT`: the reserved cases are matched first. -/
theorem classify_reserved_ne_correct (t a : String) (ht : t = "next" ∨ t = "pass") :
    classifyAnswer t a ≠ GuessResult.CORRECT := by
  rcases ht with rfl | rfl <;>
    · unfold classifyAnswer
      split_ifs <;> simp_all

/-- Away from the reserved words, the classification is `CORRECT` exactly
when the lower-cased answer equals the compared title. -/
theorem classify_correct_iff (t a : String) (hn : pyLower a ≠ "next")
    (hp : pyLower a ≠ "pass") :
    classifyAnswer t a = GuessResult.CORRECT ↔ pyLower a = t := by
  unfold classifyAnswer
  split_ifs <;> simp_all

/-- A filter keeps every element exactly when its length is unchanged. -/
theorem length_filter_eq_length_iff {α : Type} (p : α → Bool) (l : List α) :
    (l.filter p).length = l.length ↔ ∀ a ∈ l, p a = true := by
  induction l with
  | nil => simp
  | cons a l ih =>
    by_cases h : p a
    · simp [List.filter_cons, h, ih]
    · have hle := List.length_filter_le p l
      simp only [List.filter_cons, h, Bool.false_eq_true, if_false, List.length_cons]
      constructor
      · intro hlen; exact absurd hlen (by omega)
      · intro hall; exact absurd (hall a (List.mem_cons_self a l)) (by simp [h])

/-- A filter keeps nothing exactly when its length is zero. -/
theorem length_filter_eq_zero_iff {α : Type} (p : α → Bool) (l : List α) :
    (l.filter p).length = 0 ↔ ∀ a ∈ l, p a = false := by
  rw [List.length_eq_zero, List.filter_eq_nil_iff]
  simp

/-- Titles coincide when the titles coincide: `title_lower` is a function
of `title` only. -/
theorem title_lower_congr {m m2 : Movie} (h : m2.title = m.title) :
    m2.title_lower = m.title_lower := by
  unfold Movie.title_lower
  rw [h]

/-- Master invariant of the attempt loop `entryGo`: starting from a
non-terminal running result at slot `x` with `rem` slots left, a
successful run consumes between 0 and `rem` further inputs, ends early
only on `CORRECT` or `PASS`, never changes the title or the pool, every
consumed input before the last one classified as neither `CORRECT` nor
`PASS`, and a reserved-word title can never be solved. -/
theorem entryGo_spec (inputs : Nat → String) (rand : Nat → Nat) :
    ∀ (rem : Nat) (m : Movie) (res : GuessResult) (x : Nat) (m' : Movie)
      (r : GuessResult) (n : Nat),
      (res = GuessResult.DEFAULT ∨ res = GuessResult.INCORRECT) →
      entryGo inputs rand rem m res x = some (m', r, n) →
      x ≤ n ∧ n ≤ x + rem ∧
      (r = GuessResult.CORRECT ∨ r = GuessResult.PASS ∨ n = x + rem) ∧
      m'.title = m.title ∧ m'.anagrams = m.anagrams ∧
      (∀ j, x ≤ j → j + 1 < n →
        classifyAnswer m.title_lower (pyStrip (inputs j)) ≠ GuessResult.CORRECT ∧
        classifyAnswer m.title_lower (pyStrip (inputs j)) ≠ GuessResult.PASS) ∧
      ((m.title_lower = "next" ∨ m.title_lower = "pass") →
        (m'.correct_guess = m.correct_guess ∧ r ≠ GuessResult.CORRECT)) := by
  intro rem
  induction rem with
  | zero =>
    intro m res x m' r n hres h
    simp only [entryGo, Option.some.injEq, Prod.mk.injEq] at h
    obtain ⟨rfl, rfl, rfl⟩ := h
    refine ⟨Nat.le_refl _, by omega, Or.inr (Or.inr (by omega)), rfl, rfl, ?_, ?_⟩
    · intro j hj hj2
      omega
    · intro _
      refine ⟨rfl, ?_⟩
      rcases hres with rfl | rfl <;> simp
  | succ rem ih =>
    intro m res x m' r n hres h
    rw [entryGo] at h
    split at h
    · exact absurd h (by simp)
    · rename_i m2 hstep
      obtain ⟨hti, han, hcg⟩ := entryStep_some_spec hstep
      have htl : m2.title_lower = m.title_lower := title_lower_congr hti
      split at h
      case _ hcls =>
        -- classified as DEFAULT, i.e. the input was the reserved word 'next'
        obtain ⟨ih1, ih2, ih3, ih4, ih5, ih6, ih7⟩ :=
          ih m2 GuessResult.DEFAULT (x + 1) m' r n (Or.inl rfl) h
        refine ⟨by omega, by omega, ?_, hti ▸ ih4, han ▸ ih5, ?_, ?_⟩
        · rcases ih3 with h3 | h3 | h3
          · exact Or.inl h3
          · exact Or.inr (Or.inl h3)
          · exact Or.inr (Or.inr (by omega))
        · intro j hj hj2
          rcases Nat.eq_or_lt_of_le hj with rfl | hlt
          · rw [← htl, hcls]
            exact ⟨by simp, by simp⟩
          · exact htl ▸ ih6 j hlt hj2
        · intro hrt
          obtain ⟨c1, c2⟩ := ih7 (htl ▸ hrt)
          exact ⟨hcg ▸ c1, c2⟩
      case _ hcls =>
        -- classified as PASS: the loop breaks at once
        simp only [Option.some.injEq, Prod.mk.injEq] at h
        obtain ⟨rfl, rfl, rfl⟩ := h
        refine ⟨by omega, by omega, Or.inr (Or.inl rfl), hti, han, ?_, ?_⟩
        · intro j hj hj2
          omega
        · intro _
          exact ⟨hcg, by simp⟩
      case _ hcls =>
        -- classified as CORRECT: solved flag set, loop breaks at once
        simp only [Option.some.injEq, Prod.mk.injEq] at h
        obtain ⟨rfl, rfl, rfl⟩ := h
        refine ⟨by omega, by omega, Or.inl rfl, hti, han, ?_, ?_⟩
        · intro j hj hj2
          omega
        · intro hrt
          exact absurd hcls (htl ▸ classify_reserved_ne_correct m.title_lower (pyStrip (inputs x)) hrt)
      case _ hcls =>
        -- classified as INCORRECT: the loop continues
        obtain ⟨ih1, ih2, ih3, ih4, ih5, ih6, ih7⟩ :=
          ih m2 GuessResult.INCORRECT (x + 1) m' r n (Or.inr rfl) h
        refine ⟨by omega, by omega, ?_, hti ▸ ih4, han ▸ ih5, ?_, ?_⟩
        · rcases ih3 with h3 | h3 | h3
          · exact Or.inl h3
          · exact Or.inr (Or.inl h3)
          · exact Or.inr (Or.inr (by omega))
        · intro j hj hj2
          rcases Nat.eq_or_lt_of_le hj with rfl | hlt
          · rw [← htl, hcls]
            exact ⟨by simp, by simp⟩
          · exact htl ▸ ih6 j hlt hj2
        · intro hrt
          obtain ⟨c1, c2⟩ := ih7 (htl ▸ hrt)
          exact ⟨hcg ▸ c1, c2⟩

/-- Permutation invariant of the scramble loop: if every oracle sample is
a permutation of the word (as `random.sample(word, len(word))` guarantees),
any returned string is a permutation of the word. -/
theorem scramble_go_perm (w : String) :
    ∀ (i : Nat) (samples : List String) (r : String),
      (∀ s ∈ samples, s.data.Perm w.data) →
      scramble_go w i samples = some r → r.data.Perm w.data := by
  intro i samples
  induction samples with
  | nil =>
    intro r _ h
    rw [scramble_go] at h
    by_cases hi : i < 10
    · simp [hi] at h
    · obtain rfl : w = r := by simpa [hi] using h
      exact List.Perm.refl _
  | cons s rest ih =>
    intro r hs h
    rw [scramble_go] at h
    by_cases hi : i < 10
    · rw [if_pos hi] at h
      by_cases hsw : s = w
      · rw [if_neg (by simpa using hsw)] at h
        exact ih r (fun t ht => hs t (List.mem_cons_of_mem s ht)) h
      · obtain rfl : s = r := by simpa [hsw] using h
        exact hs s (List.mem_cons_self s rest)
    · obtain rfl : w = r := by simpa [hi] using h
      exact List.Perm.refl _

/-! ### Claim theorems -/

/-- C1: Contrary to the claim, `random_anagram` is not total once the
unshown pool is empty: with pool `["BA"]` the first call returns the only
variant and marks it spent, and the second call filters the pool down to
the empty list, on which `random.choice` raises `IndexError` (modelled as
`none`) — there is no fallback to a uniform choice over the full pool. -/
theorem c1_random_anagram_exhaustion_raises :
    Movie.random_anagram (Movie.mk "ab" ["BA"] false []) 0
      = some ("BA", Movie.mk "ab" ["BA"] false ["BA"]) ∧
    Movie.random_anagram (Movie.mk "ab" ["BA"] false ["BA"]) 0 = none := by
  decide

/-- C2: Contrary to the claim, `_scramble_word` does not terminate after a
bounded number of retries: its counter `i` is never incremented, so the
retry condition `i < 10` stays true forever, and for the word `"a"` —
whose every permutation equals the word itself — the loop keeps drawing
samples no matter how long the random stream is (result `none` for every
finite oracle stream) instead of returning the word unchanged. -/
theorem c2_scramble_word_diverges (samples : List String)
    (h : ∀ s ∈ samples, s = "a") :
    scramble_word "a" samples = none := by
  unfold scramble_word
  induction samples with
  | nil => simp [scramble_go]
  | cons s rest ih =>
    obtain rfl : s = "a" := h s (List.mem_cons_self s rest)
    rw [scramble_go]
    simpa using ih fun t ht => h t (List.mem_cons_of_mem _ ht)

/-- Witness for C2: even with twelve available samples — beyond the
claimed bound of 10 attempts — the loop on `"a"` never returns. -/
theorem c2_scramble_word_diverges_witness :
    scramble_word "a" (List.replicate 12 "a") = none :=
  c2_scramble_word_diverges (List.replicate 12 "a") (by decide)

/-- C3 counterexample: an empty word-list file is not an error — the
loader returns the empty title list, refuting the claim that construction
fails with a LoadError on an empty file. -/
theorem c3_empty_file_accepted_cex :
    load_movie_titles (some "") = Except.ok [] := rfl

/-- C3 (amended): loading fails — with the error propagated to the
caller, not retried — exactly when the word-list file is missing or
unreadable; a readable file, even an empty one, never fails. -/
theorem c3_load_fails_iff_unreadable (fs : Option String) :
    (∃ e, load_movie_titles fs = Except.error e) ↔ fs = none := by
  cases fs with
  | none => exact iff_of_true ⟨LoadError.fileNotFound, rfl⟩ rfl
  | some c => simp [load_movie_titles]

/-- C7: for a word with at least two distinct characters, whenever the
scramble loop returns, the returned string has exactly the character
multiset of the input word, provided every oracle sample is itself a
permutation of the word (which `random.sample(word, len(word))`
guarantees). -/
theorem c7_scramble_preserves_multiset (w : String) (samples : List String) (r : String)
    (_hw : ∃ a ∈ w.data, ∃ b ∈ w.data, a ≠ b)
    (hs : ∀ s ∈ samples, s.data.Perm w.data)
    (hr : scramble_word w samples = some r) :
    r.data.Perm w.data :=
  scramble_go_perm w 0 samples r hs hr

/-- Witness for C7: scrambling `"ab"` with the sample `"ba"` returns
`"ba"`, a permutation of `"ab"`. -/
theorem c7_scramble_preserves_multiset_witness :
    ("ba".data).Perm ("ab".data) :=
  c7_scramble_preserves_multiset "ab" ["ba"] "ba" (by decide) (by decide) (by decide)

/-- C4: the reserved commands shadow title equality.  First, any input
that normalises to `next` or `pass` is never classified as a correct
guess, whatever the title.  Second, for an entry whose title itself
normalises to a reserved word, no sequence of inputs in the attempt loop
can ever set the solved flag or end the entry in the `CORRECT` state: the
command cases of the `match` are evaluated before the title-equality
case. -/
theorem c4_reserved_commands_never_correct :
    (∀ t s : String,
      pyLower (pyStrip s) = "next" ∨ pyLower (pyStrip s) = "pass" →
      classifyAnswer (pyLower t) (pyStrip s) ≠ GuessResult.CORRECT) ∧
    (∀ (inputs : Nat → String) (rand : Nat → Nat) (maxGuesses : Nat)
        (m m' : Movie) (r : GuessResult) (n : Nat),
      (m.title_lower = "next" ∨ m.title_lower = "pass") →
      runEntry inputs rand maxGuesses m = some (m', r, n) →
      m'.correct_guess = m.correct_guess ∧ r ≠ GuessResult.CORRECT) := by
  constructor
  · intro t s hs
    unfold classifyAnswer
    rcases hs with h | h <;> simp [h]
  · intro inputs rand maxGuesses m m' r n hrt h
    obtain ⟨-, -, -, -, -, -, h7⟩ :=
      entryGo_spec inputs rand maxGuesses m GuessResult.DEFAULT 0 m' r n (Or.inl rfl) h
    exact h7 hrt

/-- Witness for C4: the command `next` typed against the title `Next` is
not a correct guess, and an entry titled `Next` run for two attempts in
which the user types its own title both times ends unsolved in the
`DEFAULT` state. -/
theorem c4_reserved_commands_never_correct_witness :
    classifyAnswer (pyLower "Next") (pyStrip "next") ≠ GuessResult.CORRECT ∧
    ((Movie.mk "Next" ["ENTX", "XTNE"] false ["ENTX", "XTNE"]).correct_guess
        = (Movie.mk "Next" ["ENTX", "XTNE"] false []).correct_guess ∧
      GuessResult.DEFAULT ≠ GuessResult.CORRECT) :=
  ⟨c4_reserved_commands_never_correct.1 "Next" "next" (Or.inl (by decide)),
   c4_reserved_commands_never_correct.2 (fun _ => "Next") (fun _ => 0) 2
     (Movie.mk "Next" ["ENTX", "XTNE"] false [])
     (Movie.mk "Next" ["ENTX", "XTNE"] false ["ENTX", "XTNE"])
     GuessResult.DEFAULT 2 (Or.inl (by decide)) (by decide)⟩

/-- C5: one question's attempt loop consumes at most `max_guesses` user
inputs (a `next` consumes a slot exactly like a wrong guess); the loop
ends before exhausting the slots only in the `CORRECT` or `PASS` state;
and no input before the final consumed one classified as `CORRECT` or
`PASS` — a correct guess or a pass ends the entry immediately. -/
theorem c5_attempts_bounded (inputs : Nat → String) (rand : Nat → Nat)
    (maxGuesses : Nat) (m m' : Movie) (r : GuessResult) (n : Nat)
    (h : runEntry inputs rand maxGuesses m = some (m', r, n)) :
    n ≤ maxGuesses ∧
    (r = GuessResult.CORRECT ∨ r = GuessResult.PASS ∨ n = maxGuesses) ∧
    (∀ j, j + 1 < n →
      classifyAnswer m.title_lower (pyStrip (inputs j)) ≠ GuessResult.CORRECT ∧
      classifyAnswer m.title_lower (pyStrip (inputs j)) ≠ GuessResult.PASS) := by
  obtain ⟨h1, h2, h3, -, -, h6, -⟩ :=
    entryGo_spec inputs rand maxGuesses m GuessResult.DEFAULT 0 m' r n (Or.inl rfl) h
  refine ⟨by omega, ?_, ?_⟩
  · rcases h3 with h3 | h3 | h3
    · exact Or.inl h3
    · exact Or.inr (Or.inl h3)
    · exact Or.inr (Or.inr (by omega))
  · intro j hj
    exact h6 j (Nat.zero_le j) hj

/-- Witness for C5: a two-variant entry with `max_guesses = 2` on which
the user types `next` twice consumes exactly the two bounded slots and
ends exhausted (state `DEFAULT`, neither correct nor passed). -/
theorem c5_attempts_bounded_witness :
    2 ≤ 2 ∧
    (GuessResult.DEFAULT = GuessResult.CORRECT ∨
      GuessResult.DEFAULT = GuessResult.PASS ∨ 2 = 2) ∧
    (∀ j, j + 1 < 2 →
      classifyAnswer (Movie.mk "Movie" ["X", "Y"] false []).title_lower
          (pyStrip "next") ≠ GuessResult.CORRECT ∧
      classifyAnswer (Movie.mk "Movie" ["X", "Y"] false []).title_lower
          (pyStrip "next") ≠ GuessResult.PASS) :=
  c5_attempts_bounded (fun _ => "next") (fun _ => 0) 2
    (Movie.mk "Movie" ["X", "Y"] false [])
    (Movie.mk "Movie" ["X", "Y"] false ["X", "Y"])
    GuessResult.DEFAULT 2 (by decide)

/-- C6 counterexample: with the title `Next`, the input `next` equals the
title after trimming and lower-casing, yet it is not accepted as a
correct guess — the reserved command shadows it, refuting the
unconditional if-and-only-if of the claim. -/
theorem c6_trimmed_comparison_cex :
    pyLower (pyStrip "next") = pyLower "Next" ∧
    classifyAnswer (pyLower "Next") (pyStrip "next") ≠ GuessResult.CORRECT := by
  exact ⟨by decide, by decide⟩

/-- C6 (amended): provided the normalised input is not one of the
reserved commands `next`/`pass`, a guess is accepted as correct exactly
when the input with surrounding whitespace stripped and lower-cased
equals the lower-cased title — exact match, no fuzzy matching. -/
theorem c6_trimmed_case_insensitive_comparison (t s : String)
    (hn : pyLower (pyStrip s) ≠ "next") (hp : pyLower (pyStrip s) ≠ "pass") :
    classifyAnswer (pyLower t) (pyStrip s) = GuessResult.CORRECT ↔
      pyLower (pyStrip s) = pyLower t :=
  classify_correct_iff (pyLower t) (pyStrip s) hn hp

/-- Witness for C6: the spec's own example — input `" Inception "`
against title `"Inception"`. -/
theorem c6_trimmed_case_insensitive_comparison_witness :
    classifyAnswer (pyLower "Inception") (pyStrip " Inception ") = GuessResult.CORRECT ↔
      pyLower (pyStrip " Inception ") = pyLower "Inception" :=
  c6_trimmed_case_insensitive_comparison "Inception" " Inception " (by decide) (by decide)

/-- C8 counterexample: on an empty quiz zero entries are correct, yet the
summary is not the commiseration message (it is the celebratory one), so
the commiseration message is not chosen "exactly when zero entries are
correct". -/
theorem c8_zero_correct_cex :
    (([] : List Movie).filter fun q => q.correct_guess).length = 0 ∧
    finalSummary [] ≠ Summary.allWrong := by
  exact ⟨rfl, by decide⟩

/-- C8 (amended): the summary is the celebratory message exactly when
every entry is solved, the commiseration message exactly when the quiz is
non-empty and no entry is solved, and otherwise the neutral message
carrying exactly the correct count and the incorrect count
(`total - correct`). -/
theorem c8_scoring_spec (qs : List Movie) :
    (finalSummary qs = Summary.allCorrect ↔ ∀ q ∈ qs, q.correct_guess = true) ∧
    (finalSummary qs = Summary.allWrong ↔
      (qs ≠ [] ∧ ∀ q ∈ qs, q.correct_guess = false)) ∧
    (∀ c i, finalSummary qs = Summary.mixed c i →
      c = (qs.filter fun q => q.correct_guess).length ∧
      i = qs.length - c ∧ 0 < c ∧ c < qs.length) := by
  have hle := List.length_filter_le (fun q => q.correct_guess) qs
  simp only [finalSummary]
  split_ifs with h1 h2
  · refine ⟨?_, ?_, ?_⟩
    · simpa using (length_filter_eq_length_iff _ qs).mp h1
    · refine iff_of_false (by simp) ?_
      rintro ⟨hne, hall⟩
      have h0 := (length_filter_eq_zero_iff _ qs).mpr hall
      exact hne (List.length_eq_zero.mp (h1.symm.trans h0))
    · intro c i habs
      exact absurd habs (by simp)
  · refine ⟨?_, ?_, ?_⟩
    · refine iff_of_false (by simp) ?_
      intro hall
      exact h1 ((length_filter_eq_length_iff _ qs).mpr hall)
    · refine iff_of_true rfl ⟨?_, (length_filter_eq_zero_iff _ qs).mp h2⟩
      rintro rfl
      exact h1 (by simp)
    · intro c i habs
      exact absurd habs (by simp)
  · refine ⟨iff_of_false (by simp) ?_, iff_of_false (by simp) ?_, ?_⟩
    · intro hall
      exact h1 ((length_filter_eq_length_iff _ qs).mpr hall)
    · rintro ⟨hne, hall⟩
      exact h2 ((length_filter_eq_zero_iff _ qs).mpr hall)
    · intro c i hmix
      simp only [Summary.mixed.injEq] at hmix
      obtain ⟨rfl, rfl⟩ := hmix
      exact ⟨rfl, rfl, by omega, by omega⟩

/-- Witness for C8: a two-entry quiz with one solved entry produces the
neutral message with counts 1 right, 1 wrong. -/
theorem c8_scoring_spec_witness :
    1 = ([Movie.mk "a" [] true [], Movie.mk "b" [] false []].filter
          fun q => q.correct_guess).length ∧
    1 = [Movie.mk "a" [] true [], Movie.mk "b" [] false []].length - 1 ∧
    0 < 1 ∧ 1 < [Movie.mk "a" [] true [], Movie.mk "b" [] false []].length :=
  (c8_scoring_spec [Movie.mk "a" [] true [], Movie.mk "b" [] false []]).2.2 1 1 (by decide)

/-- C9: the session loop of `start` resolves the built question list in
its stored order: a successful run returns a list of the same length
whose entry at every position has the same title and the same anagram
pool as the input entry at that position — only `correct_guess` and
`_spent` can differ, and the sequence is never reordered. -/
theorem c9_session_preserves_questions (inputs : Nat → Nat → String)
    (rand : Nat → Nat → Nat) (maxGuesses : Nat) :
    ∀ (i : Nat) (qs qs2 : List Movie),
      runQuestions inputs rand maxGuesses i qs = some qs2 →
      List.Forall₂ (fun q q2 => q2.title = q.title ∧ q2.anagrams = q.anagrams) qs qs2 := by
  intro i qs qs2
  induction qs generalizing i qs2 with
  | nil =>
    intro h
    obtain rfl : ([] : List Movie) = qs2 := by simpa [runQuestions] using h
    exact List.Forall₂.nil
  | cons q qs ih =>
    intro h
    rw [runQuestions] at h
    split at h
    · exact absurd h (by simp)
    · rename_i q2 r n hq
      split at h
      · exact absurd h (by simp)
      · rename_i qs3 hqs
        obtain rfl : q2 :: qs3 = qs2 := by simpa using h
        obtain ⟨-, -, -, ht, ha, -, -⟩ :=
          entryGo_spec (inputs i) (rand i) maxGuesses q GuessResult.DEFAULT 0 q2 r n
            (Or.inl rfl) hq
        exact List.Forall₂.cons ⟨ht, ha⟩ (ih (i + 1) qs3 hqs)

/-- Witness for C9: a one-entry session in which the user passes keeps
the title and the pool of the entry unchanged. -/
theorem c9_session_preserves_questions_witness :
    List.Forall₂ (fun q q2 => q2.title = q.title ∧ q2.anagrams = q.anagrams)
      [Movie.mk "ab" ["BA"] false []] [Movie.mk "ab" ["BA"] false ["BA"]] :=
  c9_session_preserves_questions (fun _ _ => "pass") (fun _ _ => 0) 1 0
    [Movie.mk "ab" ["BA"] false []] [Movie.mk "ab" ["BA"] false ["BA"]] (by decide)

/-- C10: on a quiz with zero entries, `start` reaches the summary without
error and the summary is the celebratory all-correct message (the first
branch fires because `correct == num_questions == 0`), not the zero-correct
commiseration message. -/
theorem c10_empty_quiz_celebrates (inputs : Nat → Nat → String)
    (rand : Nat → Nat → Nat) (maxGuesses : Nat) :
    start inputs rand maxGuesses [] = some ([], Summary.allCorrect) ∧
    Summary.allCorrect ≠ Summary.allWrong :=
  ⟨rfl, by decide⟩

end MovieQuiz
